import Mathlib

/-!
Verification development for the `hardspheres_2d` package.

Part 1 embeds `generate_velocities` from `src/hardspheres_2d/__init__.py`.
Floats are modelled as exact rationals; the value returned by a call to
`np.random.normal(loc, scale, size=(rows, cols))` is modelled through the
process-wide numpy generator state: a stream of standard-normal draws and a
cursor into it, so that the draw at position `k` of the stream yields the
sample `loc + scale * stream k` (numpy's location-scale semantics) and the
call consumes `rows * cols` positions of the stream.

Part 2 models the collision engine.  The Python wrapper `update_spheres`
delegates to `update_spheres_from_bin` of the compiled `hardspheres_2d._core`
module, whose sources are not part of the Python tree; those definitions are
modelled from the spec (sections 3, 4.2-4.4, 6, 7) and are marked as such.
-/

/-- Python-level error conditions reachable from `generate_velocities`:
`NotImplementedError` raised by the mass-equality check, and `ValueError`
raised by `math.sqrt` on a negative argument (math domain error). -/
inductive PyErr where
  | notImplementedError
  | valueError
  deriving DecidableEq

/-- The process-wide numpy random generator, modelled as an infinite stream of
standard-normal draws together with a cursor marking how much of the stream
has already been consumed.  Seeding the global generator fixes the stream. -/
structure NpState where
  stream : ℕ → ℝ
  cursor : ℕ

/-- Model of `math.sqrt` on a rational argument: raises `ValueError`
(math domain error) on negative input, otherwise returns the real square
root. -/
noncomputable def mathSqrt (q : ℚ) : Except PyErr ℝ :=
  if q < 0 then .error .valueError else .ok (Real.sqrt (q : ℝ))

/-- Model of `np.random.normal(loc, scale, size=(rows, cols))` against the
global generator: entry `(i, j)` of the result is `loc + scale * g` where `g`
is the standard-normal draw at stream position `cursor + i * cols + j`
(distinct positions for distinct entries, i.e. independent draws), and the
cursor advances past the `rows * cols` consumed draws. -/
noncomputable def npRandomNormal (st : NpState) (loc scale : ℝ) (rows cols : ℕ) :
    List (List ℝ) × NpState :=
  ((List.range rows).map fun i => (List.range cols).map fun j =>
      loc + scale * st.stream (st.cursor + (i * cols + j)),
   ⟨st.stream, st.cursor + rows * cols⟩)

/-- Embedding of `generate_velocities(m, dim, T, kb)` from
`src/hardspheres_2d/__init__.py`: `n = len(m)`; if `np.unique(m)` has exactly
one element the local name `m` is rebound to the scalar `m[0]`, otherwise
`NotImplementedError` is raised; then `std_dev = math.sqrt(kb * T / m)` and
the result is `np.random.normal(0, std_dev, size=(n, dim))` drawn from the
global generator state `st`.  `np.unique(m).shape[0]` is the number of
distinct values of `m`, i.e. `m.dedup.length`. -/
noncomputable def generate_velocities (st : NpState) (m : List ℚ) (dim : ℕ)
    (T : ℚ) (kb : ℚ) : Except PyErr (List (List ℝ) × NpState) :=
  if m.dedup.length = 1 then
    match mathSqrt (kb * T / m.headI) with
    | .error e => .error e
    | .ok sd => .ok (npRandomNormal st 0 sd m.length dim)
  else
    .error .notImplementedError

/-- Heap-threading embedding of `generate_velocities`: the caller's masses
array is an object on which every operation the source performs (`len(m)`,
`np.unique(m)`, the read `m[0]`) is a read; the assignment `m = m[0]` rebinds
the local name to a scalar and performs no element write.  The second
component of the result is the content of the caller's array object when the
call finishes, whether it returns or raises. -/
noncomputable def generate_velocities_heap (st : NpState) (m : List ℚ)
    (dim : ℕ) (T : ℚ) (kb : ℚ) :
    Except PyErr (List (List ℝ) × NpState) × List ℚ :=
  let arr := m
  if arr.dedup.length = 1 then
    match mathSqrt (kb * T / arr.headI) with
    | .error e => (.error e, arr)
    | .ok sd => (.ok (npRandomNormal st 0 sd arr.length dim), arr)
  else
    (.error .notImplementedError, arr)

/-- A concrete global generator state whose stream is constantly `0`. -/
noncomputable def npState0 : NpState := ⟨fun _ => 0, 0⟩

/-- A concrete global generator state whose stream is constantly `1`. -/
noncomputable def npState1 : NpState := ⟨fun _ => 1, 0⟩

/-- A concrete global generator state whose stream is `0` on the first 100
positions and `1` afterwards; it agrees with `npState0` on every position a
one-sample draw consumes. -/
noncomputable def npStateTail : NpState :=
  ⟨fun i => if i < 100 then 0 else 1, 0⟩

/-- Planar vectors of the engine model: exact rational coordinates. -/
abbrev Vec2 : Type := ℚ × ℚ

/-- Componentwise vector sum. -/
def vadd (a b : Vec2) : Vec2 := (a.1 + b.1, a.2 + b.2)

/-- Componentwise vector difference. -/
def vsub (a b : Vec2) : Vec2 := (a.1 - b.1, a.2 - b.2)

/-- Scalar multiple of a vector. -/
def smulV (c : ℚ) (a : Vec2) : Vec2 := (c * a.1, c * a.2)

/-- Euclidean inner product. -/
def dotV (a b : Vec2) : ℚ := a.1 * b.1 + a.2 * b.2

/-- Squared Euclidean norm. -/
def norm2 (a : Vec2) : ℚ := dotV a a

/-- Squared distance between two points. -/
def dist2 (a b : Vec2) : ℚ := norm2 (vsub a b)

/-- Modelled from the spec: the `HardSpheres` particle-state entity of the
compiled `hardspheres_2d._core` module (spec section 3, ParticleState):
parallel per-particle arrays of positions, velocities, radii and masses, the
domain bounds, and the fixed time unit one step advances by (spec section
4.4, fixed-time-step policy). -/
structure HardSpheres where
  pos : List Vec2
  vel : List Vec2
  radius : List ℚ
  mass : List ℚ
  width : ℚ
  height : ℚ
  dt : ℚ
  deriving DecidableEq

/-- Modelled from the spec: runtime error conditions of the collision engine
(spec sections 4.3, 4.4, 7): a degenerate coincident-center contact, carrying
the offending indices, and non-converging multi-body resolution. -/
inductive EngineError where
  | degenerateContact (i j : ℕ)
  | stalledResolution
  deriving DecidableEq

/-- Number of particles of a state. -/
def nParticles (s : HardSpheres) : ℕ := s.pos.length

/-- Position of particle `i` (out-of-range reads default to the origin; all
theorems only use in-range indices). -/
def posI (s : HardSpheres) (i : ℕ) : Vec2 := s.pos.getD i (0, 0)

/-- Velocity of particle `i`. -/
def velI (s : HardSpheres) (i : ℕ) : Vec2 := s.vel.getD i (0, 0)

/-- Radius of particle `i`. -/
def radI (s : HardSpheres) (i : ℕ) : ℚ := s.radius.getD i 0

/-- Mass of particle `i`. -/
def massI (s : HardSpheres) (i : ℕ) : ℚ := s.mass.getD i 0

/-- Modelled from the spec: the contact test of the CollisionDetector (spec
section 4.2): `distance(center_i, center_j) <= radius_i + radius_j`, a closed
inequality (exact tangency counts as contact), stated on squares so it is
exact over ℚ. -/
def inContact (s : HardSpheres) (i j : ℕ) : Bool :=
  decide (dist2 (posI s i) (posI s j) ≤ (radI s i + radI s j) ^ 2)

/-- Modelled from the spec: the CollisionDetector contract (spec section
4.2): all pairs `(i, j)` with `i < j` currently in contact, each unordered
pair reported once, listed in ascending `(i, j)` order (the deterministic
resolution order of spec section 4.4 for fixed time steps).  The spatial bin
index of section 4.1 is a performance device only: by the brute-force
cross-check property of section 8 the detector's output equals the pairwise
check, which is what is modelled here. -/
def contactPairs (s : HardSpheres) : List (ℕ × ℕ) :=
  ((List.range (nParticles s)).map fun i =>
    ((List.range (nParticles s)).filter fun j =>
        decide (i < j) && inContact s i j).map fun j => (i, j)).flatten

/-- Modelled from the spec: the CollisionResolver velocity update (spec
section 4.3), exactly the two displayed formulas: for the pair `(i, j)` with
masses `mi, mj`, centers `xi, xj` and velocities `vi, vj`,
`vi' = vi - (2 mj / (mi + mj)) * dot(vi - vj, xi - xj) / |xi - xj|^2 * (xi - xj)`
and symmetrically for `vj'`.  The positional correction of section 4.3
("if needed") is not modelled: displacing to exact tangency involves an
irrational length in general, and no claim refers to it. -/
def resolveVel (mi mj : ℚ) (xi xj vi vj : Vec2) : Vec2 × Vec2 :=
  (vsub vi (smulV (2 * mj / (mi + mj) * (dotV (vsub vi vj) (vsub xi xj) / norm2 (vsub xi xj))) (vsub xi xj)),
   vsub vj (smulV (2 * mi / (mi + mj) * (dotV (vsub vj vi) (vsub xj xi) / norm2 (vsub xj xi))) (vsub xj xi)))

/-- Modelled from the spec: one invocation of the CollisionResolver on the
pair `(i, j)` of a state (spec sections 4.3 and 7): with coincident centers
the normal is undefined and the resolver fails with the `DegenerateContact`
condition carrying the offending indices, before any division by the zero
squared distance is attempted; otherwise the velocities of `i` and `j` are
replaced by the elastic-collision update of `resolveVel`. -/
def resolveAt (s : HardSpheres) (i j : ℕ) : Except EngineError HardSpheres :=
  if posI s i = posI s j then .error (.degenerateContact i j)
  else
    let vs := resolveVel (massI s i) (massI s j) (posI s i) (posI s j)
      (velI s i) (velI s j)
    .ok ⟨s.pos, (s.vel.set i vs.1).set j vs.2, s.radius, s.mass,
      s.width, s.height, s.dt⟩

/-- Modelled from the spec: reflective boundary handling of one coordinate
(spec section 4.4, step 3, with the reflective policy chosen as the single
documented convention): the coordinate advances to `p`; if it left the
interval `[0, w]` the position is mirrored at the wall and the normal
velocity component `v` is negated. -/
def reflect1 (w p v : ℚ) : ℚ × ℚ :=
  if p < 0 then (-p, -v) else if w < p then (2 * w - p, -v) else (p, v)

/-- Modelled from the spec: free flight of a single particle for the time
unit `dt` (spec section 4.4, step 3): `position += velocity * dt`,
componentwise, with reflective boundary handling by `reflect1`. -/
def flightOne (w h dt : ℚ) (p v : Vec2) : Vec2 × Vec2 :=
  let rx := reflect1 w (p.1 + v.1 * dt) v.1
  let ry := reflect1 h (p.2 + v.2 * dt) v.2
  ((rx.1, ry.1), (rx.2, ry.2))

/-- Modelled from the spec: free flight of every particle of a state for one
time unit (spec section 4.4, step 3). -/
def freeFlight (s : HardSpheres) : HardSpheres :=
  let moved := (s.pos.zip s.vel).map fun pv =>
    flightOne s.width s.height s.dt pv.1 pv.2
  ⟨moved.map Prod.fst, moved.map Prod.snd, s.radius, s.mass,
    s.width, s.height, s.dt⟩

/-- Modelled from the spec: the contacts still awaiting resolution within the
current step (spec section 4.4: the loop "must strictly decrease the
remaining number of unresolved contacts"): the detector's report with the
pairs already resolved during this step (`done`) removed. -/
def pendingContacts (done : List (ℕ × ℕ)) (s : HardSpheres) : List (ℕ × ℕ) :=
  (contactPairs s).filter fun p => !done.contains p

/-- Modelled from the spec: the resolution loop of spec section 4.4, step 4:
as long as unresolved contacts remain, resolve the least pending pair in
ascending `(i, j)` order, record it as resolved, emit the intermediate state,
and re-run detection; iteration is bounded by the fuel and exhausting it
while contacts remain fails with `StalledResolution` (spec section 4.4,
termination guarantee).  The returned list is the chronological sequence of
intermediate states, one per resolution. -/
def resolveLoop : ℕ → List (ℕ × ℕ) → HardSpheres →
    Except EngineError (List HardSpheres)
  | 0, done, s =>
    match pendingContacts done s with
    | [] => .ok []
    | _ :: _ => .error .stalledResolution
  | fuel + 1, done, s =>
    match pendingContacts done s with
    | [] => .ok []
    | (i, j) :: _ =>
      match resolveAt s i j with
      | .error e => .error e
      | .ok s' =>
        match resolveLoop fuel ((i, j) :: done) s' with
        | .error e => .error e
        | .ok rest => .ok (s' :: rest)

/-- Modelled from the spec: the iteration bound of the resolution loop, "a
multiple of N" (spec section 4.4). -/
def iterationCap (s : HardSpheres) : ℕ := 4 * nParticles s

/-- Modelled from the spec: the SimulationStepper `step` of the compiled
`hardspheres_2d._core` module (spec sections 4.4 and 6): run the resolution
loop from an empty resolved set, then apply free flight for the residual time
to the last intermediate state (or to the input state when no collision
occurred) and emit the chronological intermediate states followed by the
final state; every error of the loop propagates, and on error no states are
returned (spec section 7, no partial-failure mode). -/
def update_spheres_from_bin (s : HardSpheres) :
    Except EngineError (List HardSpheres) :=
  match resolveLoop (iterationCap s) [] s with
  | .error e => .error e
  | .ok mids => .ok (mids ++ [freeFlight (mids.getLastD s)])

/-- Embedding of `update_spheres` from `src/hardspheres_2d/__init__.py`: the
wrapper delegates to `update_spheres_from_bin` of the compiled core. -/
def update_spheres (s : HardSpheres) : Except EngineError (List HardSpheres) :=
  update_spheres_from_bin s

/-- One chronological resolution step between emitted states: `b` arises from
`a` by resolving a pair the detector reports on `a`. -/
def ResolutionStep (a b : HardSpheres) : Prop :=
  ∃ i j, (i, j) ∈ contactPairs a ∧ resolveAt a i j = .ok b

/-- A one-particle state well inside the domain: no contact is possible. -/
def exFree : HardSpheres := ⟨[(2, 2)], [(1, 0)], [1], [1], 10, 10, 1⟩

/-- The state `exFree` after one free-flight time unit. -/
def exFreeAfter : HardSpheres := ⟨[(3, 2)], [(1, 0)], [1], [1], 10, 10, 1⟩

/-- Two equal unit-mass particles of radius 1/2, exactly tangent and in
head-on approach. -/
def exTangent : HardSpheres :=
  ⟨[(4, 5), (5, 5)], [(1, 0), (-1, 0)], [1/2, 1/2], [1, 1], 10, 10, 1⟩

/-- The state `exTangent` after its single collision is resolved: the
velocities are exchanged. -/
def exTangentMid : HardSpheres :=
  ⟨[(4, 5), (5, 5)], [(-1, 0), (1, 0)], [1/2, 1/2], [1, 1], 10, 10, 1⟩

/-- The state `exTangentMid` after the residual free flight. -/
def exTangentFinal : HardSpheres :=
  ⟨[(3, 5), (6, 5)], [(-1, 0), (1, 0)], [1/2, 1/2], [1, 1], 10, 10, 1⟩

/-- Two particles with coincident centers: a degenerate contact. -/
def exCoincident : HardSpheres :=
  ⟨[(4, 4), (4, 4)], [(0, 0), (0, 0)], [1, 1], [1, 1], 10, 10, 1⟩

/-- Two particles of radius 1 with centers 3 apart (no contact) approaching
each other with relative speed 2: one time unit of free flight moves their
centers to distance 1, well inside overlap. -/
def exTunnel : HardSpheres :=
  ⟨[(2, 5), (5, 5)], [(1, 0), (-1, 0)], [1, 1], [1, 1], 10, 10, 1⟩

/-- The state `exTunnel` after one step: the final emitted state, with the
two particles overlapping (center distance 1, radii summing to 2). -/
def exTunnelFinal : HardSpheres :=
  ⟨[(3, 5), (4, 5)], [(1, 0), (-1, 0)], [1, 1], [1, 1], 10, 10, 1⟩


theorem dedup_const (m : List ℚ) (c : ℚ) (hne : m ≠ []) (hall : ∀ x ∈ m, x = c) :
    m.dedup = [c] := by
  induction m with
  | nil => cases hne rfl
  | cons a t ih =>
    have ha : a = c := hall a (List.mem_cons_self a t)
    cases t with
    | nil => simp [ha]
    | cons b t' =>
      have ht : (b :: t').dedup = [c] :=
        ih (by simp) (fun x hx => hall x (List.mem_cons_of_mem a hx))
      have hb : b = c := hall b (by simp)
      have hmem : a ∈ b :: t' := by
        rw [ha, ← hb]
        exact List.mem_cons_self b t'
      rw [List.dedup_cons_of_mem hmem, ht]

theorem dedup_length_ne_one (m : List ℚ) (a b : ℚ) (ha : a ∈ m) (hb : b ∈ m)
    (hab : a ≠ b) : m.dedup.length ≠ 1 := by
  intro h1
  obtain ⟨c, hc⟩ := List.length_eq_one.mp h1
  have ha' : a = c := by
    have := List.mem_dedup.mpr ha
    rw [hc] at this
    simpa using this
  have hb' : b = c := by
    have := List.mem_dedup.mpr hb
    rw [hc] at this
    simpa using this
  exact hab (ha'.trans hb'.symm)

/-- C2: for every masses sequence containing at least two distinct values,
`generate_velocities` fails with `NotImplementedError` (the unsupported
heterogeneous-mass configuration) and returns no array: the mass-equality
check raises before any sampling happens, for any generator state. -/
theorem generate_velocities_hetero_err (st : NpState) (m : List ℚ) (dim : ℕ)
    (T kb : ℚ) (a b : ℚ) (ha : a ∈ m) (hb : b ∈ m) (hab : a ≠ b) :
    generate_velocities st m dim T kb = .error .notImplementedError := by
  have hlen : ¬ m.dedup.length = 1 := dedup_length_ne_one m a b ha hb hab
  simp [generate_velocities, hlen]

theorem generate_velocities_hetero_err_witness :
    ((1 : ℚ) ∈ ([1, 2] : List ℚ) ∧ (2 : ℚ) ∈ ([1, 2] : List ℚ) ∧ (1 : ℚ) ≠ 2) ∧
      generate_velocities npState0 [1, 2] 3 1 1 = .error .notImplementedError :=
  ⟨⟨by decide, by decide, by decide⟩,
    generate_velocities_hetero_err npState0 [1, 2] 3 1 1 1 2 (by decide) (by decide)
      (by decide)⟩

/-- C8: on the empty masses sequence, `np.unique(m)` has zero distinct values,
so the equality check (which demands exactly one) fails and
`generate_velocities` raises `NotImplementedError` instead of returning an
empty `(0, dim)` array. -/
theorem generate_velocities_empty_err (st : NpState) (dim : ℕ) (T kb : ℚ) :
    generate_velocities st [] dim T kb = .error .notImplementedError := by
  simp [generate_velocities]

/-- C9: `generate_velocities` validates neither signs nor positivity: with all
masses equal (the mass check passes) and `kb * T / m < 0`, e.g. masses `[1]`,
`T = -1`, `kb = 1`, the call fails inside the standard-deviation computation
with the `math.sqrt` domain error (`ValueError`), which is not the
configuration/unsupported condition `NotImplementedError`. -/
theorem generate_velocities_no_sign_validation (st : NpState) :
    generate_velocities st [1] 2 (-1) 1 = .error .valueError ∧
      PyErr.valueError ≠ PyErr.notImplementedError := by
  constructor
  · norm_num [generate_velocities, mathSqrt]
  · decide

/-- C10: the caller's masses array is unchanged by `generate_velocities`,
whether the call returns or raises: every operation the source performs on
the array is a read, and the rebinding `m = m[0]` touches only the local
name.  The first conjunct states the frame property on the heap-threading
embedding; the second states that threading the array does not change the
computed result. -/
theorem generate_velocities_preserves_masses (st : NpState) (m : List ℚ)
    (dim : ℕ) (T kb : ℚ) :
    (generate_velocities_heap st m dim T kb).2 = m ∧
      (generate_velocities_heap st m dim T kb).1 = generate_velocities st m dim T kb := by
  unfold generate_velocities_heap generate_velocities
  by_cases h : m.dedup.length = 1
  · simp only [h, if_pos]
    cases hs : mathSqrt (kb * T / m.headI) <;> simp
  · simp [h]

/-- C1 (amended): for a nonempty masses sequence all equal to `mval > 0`,
any dimension, `T ≥ 0`, and a Boltzmann constant with `kb * T ≥ 0` (the
default `kb = 1` included), `generate_velocities` returns the
`np.random.normal` draw with mean `0`, standard deviation
`sqrt(kb * T / mval)` and shape `(N, dim)`: entry `(i, j)` is an independent
draw (a distinct stream position per entry) scaled by that standard
deviation, the matrix has `N` rows, and every row has `dim` entries. -/
theorem generate_velocities_uniform_mass (st : NpState) (m : List ℚ) (dim : ℕ)
    (T kb mval : ℚ) (hne : m ≠ []) (hall : ∀ x ∈ m, x = mval) (hm : 0 < mval)
    (_hT : 0 ≤ T) (hkbT : 0 ≤ kb * T) :
    generate_velocities st m dim T kb =
      .ok (npRandomNormal st 0 (Real.sqrt ((kb * T / mval : ℚ) : ℝ)) m.length dim) ∧
    (npRandomNormal st 0 (Real.sqrt ((kb * T / mval : ℚ) : ℝ)) m.length dim).1.length
      = m.length ∧
    ∀ row ∈ (npRandomNormal st 0 (Real.sqrt ((kb * T / mval : ℚ) : ℝ)) m.length dim).1,
      row.length = dim := by
  have hd : m.dedup = [mval] := dedup_const m mval hne hall
  have hh : m.headI = mval := by
    cases m with
    | nil => cases hne rfl
    | cons a t => simpa using hall a (List.mem_cons_self a t)
  have harg : ¬ (kb * T / mval < 0) := not_lt.mpr (div_nonneg hkbT hm.le)
  refine ⟨?_, ?_, ?_⟩
  · simp [generate_velocities, hd, hh, mathSqrt, harg]
  · simp [npRandomNormal]
  · intro row hrow
    simp only [npRandomNormal, List.mem_map, List.mem_range] at hrow
    obtain ⟨i, hi, hrw⟩ := hrow
    simp [← hrw]

theorem generate_velocities_uniform_mass_witness :
    (([2, 2] : List ℚ) ≠ [] ∧ (∀ x ∈ ([2, 2] : List ℚ), x = 2) ∧ (0 : ℚ) < 2 ∧
      (0 : ℚ) ≤ 5 ∧ (0 : ℚ) ≤ 1 * 5) ∧
    generate_velocities npState0 [2, 2] 3 5 1 =
      .ok (npRandomNormal npState0 0 (Real.sqrt ((1 * 5 / 2 : ℚ) : ℝ))
        ([2, 2] : List ℚ).length 3) :=
  ⟨⟨by decide, by decide, by decide, by decide, by norm_num⟩,
    (generate_velocities_uniform_mass npState0 [2, 2] 3 5 1 2 (by decide) (by decide)
      (by decide) (by decide) (by norm_num)).1⟩

/-- C1 counterexample: the claim quantifies over every Boltzmann constant,
but with `kb = -1`, `T = 1` and masses `[1]` (all equal, positive, `T ≥ 0`)
the standard-deviation computation takes `math.sqrt` of the negative
`kb * T / m` and the call raises `ValueError` instead of returning a
`(1, 2)`-shaped array. -/
theorem generate_velocities_negative_kb_cex :
    generate_velocities npState0 [1] 2 1 (-1) = .error .valueError := by
  norm_num [generate_velocities, mathSqrt]

/-- C3 counterexample: `generate_velocities` has no random-source parameter;
it draws from the process-wide numpy generator, so two calls with identical
explicit arguments but different global generator states return different
arrays: with masses `[1]`, `dim = 1`, `T = 1`, `kb = 1` the all-zeros stream
yields `[[0]]` while the all-ones stream yields `[[1]]`. -/
theorem generate_velocities_global_state_cex :
    (generate_velocities npState0 [1] 1 1 1).map Prod.fst ≠
      (generate_velocities npState1 [1] 1 1 1).map Prod.fst := by
  norm_num [generate_velocities, mathSqrt, npRandomNormal, npState0, npState1,
    Real.sqrt_one, Except.map]

/-- C3 (amended): the sampler's output is a function of its explicit
arguments together with the consumed window of the process-wide generator
stream: two runs on the same inputs return the same array whenever the
global generator state agrees on the `N * dim` standard-normal draws the
call consumes (as after seeding the global generator identically); no
explicit random-source parameter exists in the interface. -/
theorem generate_velocities_window_determinism (st st' : NpState) (m : List ℚ)
    (dim : ℕ) (T kb : ℚ) (_hcur : st.cursor = st'.cursor)
    (hwin : ∀ i, i < m.length * dim →
      st.stream (st.cursor + i) = st'.stream (st'.cursor + i)) :
    (generate_velocities st m dim T kb).map Prod.fst =
      (generate_velocities st' m dim T kb).map Prod.fst := by
  unfold generate_velocities
  by_cases h1 : m.dedup.length = 1
  · simp only [h1, if_pos]
    cases hs : mathSqrt (kb * T / m.headI) with
    | error e => simp
    | ok sd =>
      simp only [Except.map, npRandomNormal]
      refine congrArg Except.ok ?_
      refine List.map_congr_left ?_
      intro i hi
      refine List.map_congr_left ?_
      intro j hj
      rw [List.mem_range] at hi hj
      have hlt : i * dim + j < m.length * dim := by
        have h2 : i * dim + j < (i + 1) * dim := by
          have := Nat.add_lt_add_left hj (i * dim)
          calc i * dim + j < i * dim + dim := this
            _ = (i + 1) * dim := by ring
        exact lt_of_lt_of_le h2 (Nat.mul_le_mul_right dim hi)
      rw [hwin (i * dim + j) hlt]
  · simp [h1]

theorem generate_velocities_window_determinism_witness :
    (npState0.cursor = npStateTail.cursor ∧
      (∀ i, i < ([1] : List ℚ).length * 1 →
        npState0.stream (npState0.cursor + i) =
          npStateTail.stream (npStateTail.cursor + i))) ∧
    (generate_velocities npState0 [1] 1 1 1).map Prod.fst =
      (generate_velocities npStateTail [1] 1 1 1).map Prod.fst :=
  ⟨⟨rfl, by
      intro i hi
      have hi' : i < 100 := by
        simp only [List.length_cons, List.length_nil] at hi
        omega
      simp [npState0, npStateTail, hi']⟩,
    generate_velocities_window_determinism npState0 npStateTail [1] 1 1 1 rfl
      (by
        intro i hi
        have hi' : i < 100 := by
          simp only [List.length_cons, List.length_nil] at hi
          omega
        simp [npState0, npStateTail, hi'])⟩

theorem contactPairs_mem_lt (s : HardSpheres) (p : ℕ × ℕ) (h : p ∈ contactPairs s) :
    p.1 < p.2 ∧ p.2 < nParticles s := by
  unfold contactPairs at h
  rw [List.mem_flatten] at h
  obtain ⟨l, hl, hpl⟩ := h
  rw [List.mem_map] at hl
  obtain ⟨i, hi, rfl⟩ := hl
  rw [List.mem_map] at hpl
  obtain ⟨j, hj, rfl⟩ := hpl
  rw [List.mem_filter] at hj
  obtain ⟨hjr, hcond⟩ := hj
  rw [List.mem_range] at hjr
  simp only [Bool.and_eq_true, decide_eq_true_eq] at hcond
  exact ⟨hcond.1, hjr⟩

theorem pendingContacts_sub (done : List (ℕ × ℕ)) (s : HardSpheres) (p : ℕ × ℕ)
    (h : p ∈ pendingContacts done s) : p ∈ contactPairs s :=
  (List.mem_filter.mp h).1

theorem pendingContacts_nil (s : HardSpheres) :
    pendingContacts [] s = contactPairs s := by
  simp [pendingContacts]

theorem resolveLoop_chain (fuel : ℕ) (done : List (ℕ × ℕ)) (s : HardSpheres)
    (mids : List HardSpheres) (h : resolveLoop fuel done s = .ok mids) :
    List.Chain ResolutionStep s mids := by
  induction fuel generalizing done s mids with
  | zero =>
    cases hp : pendingContacts done s with
    | nil =>
      simp only [resolveLoop, hp] at h
      cases h
      exact List.Chain.nil
    | cons p t => simp [resolveLoop, hp] at h
  | succ n ih =>
    cases hp : pendingContacts done s with
    | nil =>
      simp only [resolveLoop, hp] at h
      cases h
      exact List.Chain.nil
    | cons p t =>
      obtain ⟨i, j⟩ := p
      cases hr : resolveAt s i j with
      | error e => simp [resolveLoop, hp, hr] at h
      | ok s' =>
        cases hl : resolveLoop n ((i, j) :: done) s' with
        | error e => simp [resolveLoop, hp, hr, hl] at h
        | ok rest =>
          simp only [resolveLoop, hp, hr, hl] at h
          cases h
          refine List.Chain.cons ⟨i, j, ?_, hr⟩ (ih _ _ _ hl)
          exact pendingContacts_sub done s (i, j) (hp ▸ List.mem_cons_self _ _)

theorem resolveLoop_resolved (fuel : ℕ) (done : List (ℕ × ℕ)) (s : HardSpheres)
    (mids : List HardSpheres) (d : HardSpheres)
    (h : resolveLoop fuel done s = .ok mids) :
    ∀ p ∈ contactPairs (mids.getLastD s), p ∈ done ∨
      ∃ t, t + 1 < (s :: mids).length ∧
        resolveAt ((s :: mids).getD t d) p.1 p.2 = .ok ((s :: mids).getD (t + 1) d) := by
  induction fuel generalizing done s mids with
  | zero =>
    cases hp : pendingContacts done s with
    | nil =>
      simp only [resolveLoop, hp] at h
      cases h
      intro p hpm
      left
      have := List.filter_eq_nil_iff.mp hp p hpm
      simpa using this
    | cons p t => simp [resolveLoop, hp] at h
  | succ n ih =>
    cases hp : pendingContacts done s with
    | nil =>
      simp only [resolveLoop, hp] at h
      cases h
      intro p hpm
      left
      have := List.filter_eq_nil_iff.mp hp p hpm
      simpa using this
    | cons q t =>
      obtain ⟨i, j⟩ := q
      cases hr : resolveAt s i j with
      | error e => simp [resolveLoop, hp, hr] at h
      | ok s' =>
        cases hl : resolveLoop n ((i, j) :: done) s' with
        | error e => simp [resolveLoop, hp, hr, hl] at h
        | ok rest =>
          simp only [resolveLoop, hp, hr, hl] at h
          cases h
          intro p hpm
          rw [List.getLastD_cons] at hpm
          rcases ih ((i, j) :: done) s' rest hl p hpm with hd | ⟨u, hu, he⟩
          · rcases List.mem_cons.mp hd with rfl | hd'
            · right
              refine ⟨0, by simp, ?_⟩
              simpa using hr
            · exact Or.inl hd'
          · right
            refine ⟨u + 1, ?_, ?_⟩
            · simpa using Nat.succ_lt_succ hu
            · simpa using he

theorem update_spheres_ok_decomp (s : HardSpheres) (out : List HardSpheres)
    (h : update_spheres s = .ok out) :
    ∃ mids, resolveLoop (iterationCap s) [] s = .ok mids ∧
      out = mids ++ [freeFlight (mids.getLastD s)] := by
  unfold update_spheres update_spheres_from_bin at h
  cases hl : resolveLoop (iterationCap s) [] s with
  | error e => rw [hl] at h; cases h
  | ok mids =>
    rw [hl] at h
    cases h
    exact ⟨mids, rfl, rfl⟩

theorem exFree_contacts : contactPairs exFree = [] := by
  simp [contactPairs, nParticles, exFree]

theorem exFree_step : update_spheres exFree = .ok [exFreeAfter] := by
  have hcap : iterationCap exFree = 4 := by
    simp [iterationCap, nParticles, exFree]
  have hff : freeFlight exFree = exFreeAfter := by
    simp only [freeFlight, flightOne, reflect1, exFree, exFreeAfter,
      List.zip_cons_cons, List.zip_nil_right, List.map_cons, List.map_nil]
    norm_num
  simp [update_spheres, update_spheres_from_bin, hcap, resolveLoop,
    pendingContacts, exFree_contacts, hff]

theorem exTangent_contacts : contactPairs exTangent = [(0, 1)] := by
  have h01 : inContact exTangent 0 1 = true := by
    simp only [inContact, decide_eq_true_eq, dist2, norm2, dotV, vsub, posI,
      radI, exTangent]
    norm_num
  have hn : nParticles exTangent = 2 := by
    simp [nParticles, exTangent]
  simp [contactPairs, hn, List.range_succ, h01]

theorem exTangent_resolve : resolveAt exTangent 0 1 = .ok exTangentMid := by
  simp only [resolveAt, resolveVel, posI, velI, radI, massI, exTangent,
    exTangentMid, vsub, smulV, dotV, norm2]
  norm_num

theorem exTangentMid_contacts : contactPairs exTangentMid = [(0, 1)] := by
  have h01 : inContact exTangentMid 0 1 = true := by
    simp only [inContact, decide_eq_true_eq, dist2, norm2, dotV, vsub, posI,
      radI, exTangentMid]
    norm_num
  have hn : nParticles exTangentMid = 2 := by
    simp [nParticles, exTangentMid]
  simp [contactPairs, hn, List.range_succ, h01]

theorem exTangent_step :
    update_spheres exTangent = .ok [exTangentMid, exTangentFinal] := by
  have hff : freeFlight exTangentMid = exTangentFinal := by
    simp only [freeFlight, flightOne, reflect1, exTangentMid, exTangentFinal,
      List.zip_cons_cons, List.zip_nil_right, List.map_cons, List.map_nil]
    norm_num
  have hcap : iterationCap exTangent = 8 := by
    simp [iterationCap, nParticles, exTangent]
  simp [update_spheres, update_spheres_from_bin, hcap, resolveLoop,
    pendingContacts, exTangent_contacts, exTangent_resolve,
    exTangentMid_contacts, hff]

theorem exCoincident_contacts : contactPairs exCoincident = [(0, 1)] := by
  have h01 : inContact exCoincident 0 1 = true := by
    simp only [inContact, decide_eq_true_eq, dist2, norm2, dotV, vsub, posI,
      radI, exCoincident]
    norm_num
  have hn : nParticles exCoincident = 2 := by
    simp [nParticles, exCoincident]
  simp [contactPairs, hn, List.range_succ, h01]

theorem exCoincident_pos : posI exCoincident 0 = posI exCoincident 1 := by
  simp [posI, exCoincident]

theorem exTunnel_contacts : contactPairs exTunnel = [] := by
  have h01 : inContact exTunnel 0 1 = false := by
    simp only [inContact, decide_eq_false_iff_not, dist2, norm2, dotV, vsub,
      posI, radI, exTunnel]
    norm_num
  have hn : nParticles exTunnel = 2 := by
    simp [nParticles, exTunnel]
  simp [contactPairs, hn, List.range_succ, h01]

theorem exTunnel_step : update_spheres exTunnel = .ok [exTunnelFinal] := by
  have hcap : iterationCap exTunnel = 8 := by
    simp [iterationCap, nParticles, exTunnel]
  have hff : freeFlight exTunnel = exTunnelFinal := by
    simp only [freeFlight, flightOne, reflect1, exTunnel, exTunnelFinal,
      List.zip_cons_cons, List.zip_nil_right, List.map_cons, List.map_nil]
    norm_num
  simp [update_spheres, update_spheres_from_bin, hcap, resolveLoop,
    pendingContacts, exTunnel_contacts, hff]

/-- C4: whenever the step entry point `update_spheres` returns, it returns at
least one state; the returned sequence is the chronological list of
intermediate states — each obtained from its predecessor by resolving a pair
the detector reports on that predecessor — followed by the final state, the
free flight of the last intermediate state (of the input state when no
collision occurred). -/
theorem update_spheres_emits_ordered_states (s : HardSpheres)
    (out : List HardSpheres) (h : update_spheres s = .ok out) :
    1 ≤ out.length ∧ ∃ mids, out = mids ++ [freeFlight (mids.getLastD s)] ∧
      List.Chain ResolutionStep s mids := by
  obtain ⟨mids, hl, hout⟩ := update_spheres_ok_decomp s out h
  subst hout
  exact ⟨by simp, mids, rfl, resolveLoop_chain _ _ _ _ hl⟩

theorem update_spheres_emits_ordered_states_witness :
    update_spheres exFree = .ok [exFreeAfter] ∧
      (1 ≤ ([exFreeAfter] : List HardSpheres).length ∧
        ∃ mids, ([exFreeAfter] : List HardSpheres) =
            mids ++ [freeFlight (mids.getLastD exFree)] ∧
          List.Chain ResolutionStep exFree mids) :=
  ⟨exFree_step, update_spheres_emits_ordered_states exFree [exFreeAfter] exFree_step⟩

/-- C6: on a pair with coincident centers the resolver fails with the
`DegenerateContact` condition carrying the offending indices (the degeneracy
check precedes any division by the vanishing squared distance), and when such
a pair heads the detector's report the failure propagates unchanged to the
caller of the step entry point, which returns no states at all. -/
theorem coincident_contact_degenerate (s : HardSpheres) (i j : ℕ)
    (rest : List (ℕ × ℕ)) (hhead : contactPairs s = (i, j) :: rest)
    (hco : posI s i = posI s j) :
    resolveAt s i j = .error (.degenerateContact i j) ∧
      update_spheres s = .error (.degenerateContact i j) := by
  have hres : resolveAt s i j = .error (.degenerateContact i j) := by
    simp [resolveAt, hco]
  refine ⟨hres, ?_⟩
  have hmem : (i, j) ∈ contactPairs s := by
    rw [hhead]
    exact List.mem_cons_self _ _
  have hn : 2 ≤ nParticles s := by
    have := contactPairs_mem_lt s (i, j) hmem
    omega
  obtain ⟨f, hf⟩ : ∃ f, iterationCap s = f + 1 :=
    ⟨4 * nParticles s - 1, by unfold iterationCap; omega⟩
  unfold update_spheres update_spheres_from_bin
  rw [hf]
  simp [resolveLoop, pendingContacts_nil, hhead, hres]

theorem coincident_contact_degenerate_witness :
    (contactPairs exCoincident = [(0, 1)] ∧
      posI exCoincident 0 = posI exCoincident 1) ∧
    (resolveAt exCoincident 0 1 = .error (.degenerateContact 0 1) ∧
      update_spheres exCoincident = .error (.degenerateContact 0 1)) :=
  ⟨⟨exCoincident_contacts, exCoincident_pos⟩,
    coincident_contact_degenerate exCoincident 0 1 [] exCoincident_contacts
      exCoincident_pos⟩

/-- C5: the elastic-collision velocity update of the resolver conserves the
total momentum vector `mi * vi + mj * vj` and the total kinetic energy
`1/2 mi |vi|^2 + 1/2 mj |vj|^2` exactly, for every pair of distinct centers,
all positive masses and every approach angle. -/
theorem resolveVel_conserves (mi mj : ℚ) (xi xj vi vj : Vec2)
    (hmi : 0 < mi) (hmj : 0 < mj) (hx : xi ≠ xj) :
    vadd (smulV mi (resolveVel mi mj xi xj vi vj).1)
        (smulV mj (resolveVel mi mj xi xj vi vj).2) =
      vadd (smulV mi vi) (smulV mj vj) ∧
    1/2 * mi * norm2 (resolveVel mi mj xi xj vi vj).1 +
        1/2 * mj * norm2 (resolveVel mi mj xi xj vi vj).2 =
      1/2 * mi * norm2 vi + 1/2 * mj * norm2 vj := by
  obtain ⟨x1, x2⟩ := xi
  obtain ⟨y1, y2⟩ := xj
  obtain ⟨u1, u2⟩ := vi
  obtain ⟨w1, w2⟩ := vj
  have hM : mi + mj ≠ 0 := by positivity
  simp only [resolveVel, vadd, vsub, smulV, dotV, norm2, Prod.mk.injEq]
  rw [show y1 - x1 = -(x1 - y1) from by ring, show y2 - x2 = -(x2 - y2) from by ring]
  generalize hdx : x1 - y1 = dx
  generalize hdy : x2 - y2 = dy
  have hD : dx * dx + dy * dy ≠ 0 := by
    intro h0
    apply hx
    have h1 : dx = 0 := by nlinarith [sq_nonneg dx, sq_nonneg dy]
    have h2 : dy = 0 := by nlinarith [sq_nonneg dx, sq_nonneg dy]
    rw [h1] at hdx
    rw [h2] at hdy
    have e1 : x1 = y1 := by linarith
    have e2 : x2 = y2 := by linarith
    rw [e1, e2]
  refine ⟨⟨?_, ?_⟩, ?_⟩
  · field_simp
    ring
  · field_simp
    ring
  · field_simp
    ring

theorem resolveVel_conserves_witness :
    ((0 : ℚ) < 1 ∧ (((0 : ℚ), (0 : ℚ)) : Vec2) ≠ ((1 : ℚ), (0 : ℚ))) ∧
      (vadd (smulV 1 (resolveVel 1 1 (0, 0) (1, 0) (1, 0) (-1, 0)).1)
          (smulV 1 (resolveVel 1 1 (0, 0) (1, 0) (1, 0) (-1, 0)).2) =
        vadd (smulV 1 (1, 0)) (smulV 1 (-1, 0)) ∧
      1/2 * 1 * norm2 (resolveVel 1 1 (0, 0) (1, 0) (1, 0) (-1, 0)).1 +
          1/2 * 1 * norm2 (resolveVel 1 1 (0, 0) (1, 0) (1, 0) (-1, 0)).2 =
        1/2 * 1 * norm2 ((1 : ℚ), (0 : ℚ)) + 1/2 * 1 * norm2 ((-1 : ℚ), (0 : ℚ))) :=
  ⟨⟨by norm_num, by decide⟩,
    resolveVel_conserves 1 1 (0, 0) (1, 0) (1, 0) (-1, 0) (by norm_num)
      (by norm_num) (by decide)⟩

/-- C7 counterexample: a completed step can emit a final state whose
particles overlap.  From `exTunnel` (two radius-1 particles 3 apart, hence
contact-free, approaching with relative speed 2) the step resolves nothing
and the free flight moves the centers to distance 1 while the radii sum to 2:
the emitted final state violates `distance >= r_0 + r_1 - eps` even with the
generous tolerance `eps = 1/2` (stated on squares, with the nonnegativity of
the reduced threshold making the squared comparison faithful). -/
theorem post_step_overlap_cex :
    update_spheres exTunnel = .ok [exTunnelFinal] ∧
      dist2 (posI exTunnelFinal 0) (posI exTunnelFinal 1) <
        (radI exTunnelFinal 0 + radI exTunnelFinal 1 - 1/2) ^ 2 ∧
      (0 : ℚ) ≤ radI exTunnelFinal 0 + radI exTunnelFinal 1 - 1/2 := by
  refine ⟨exTunnel_step, ?_, ?_⟩
  · simp only [dist2, norm2, dotV, vsub, posI, radI, exTunnelFinal]
    norm_num
  · simp only [radI, exTunnelFinal]
    norm_num

/-- C7 (amended): after a completed step no detected contact is left
unresolved: every pair the detector reports on the state from which the
final free flight is taken was resolved at some point during the step (the
non-overlap invariant in the strict metric sense is not re-established by the
step itself: the velocity-only resolution keeps tangency, and the free-flight
motion within the same step can move contact-free particles into overlap, as
`post_step_overlap_cex` shows). -/
theorem update_spheres_resolves_every_contact (s : HardSpheres)
    (out : List HardSpheres) (h : update_spheres s = .ok out) :
    ∃ mids, out = mids ++ [freeFlight (mids.getLastD s)] ∧
      ∀ p ∈ contactPairs (mids.getLastD s),
        ∃ t, t + 1 < (s :: mids).length ∧
          resolveAt ((s :: mids).getD t s) p.1 p.2 = .ok ((s :: mids).getD (t + 1) s) := by
  obtain ⟨mids, hl, hout⟩ := update_spheres_ok_decomp s out h
  refine ⟨mids, hout, ?_⟩
  intro p hp
  rcases resolveLoop_resolved _ _ _ _ s hl p hp with hdone | hres
  · cases hdone
  · exact hres

theorem update_spheres_resolves_every_contact_witness :
    update_spheres exTangent = .ok [exTangentMid, exTangentFinal] ∧
      (∃ mids, ([exTangentMid, exTangentFinal] : List HardSpheres) =
          mids ++ [freeFlight (mids.getLastD exTangent)] ∧
        ∀ p ∈ contactPairs (mids.getLastD exTangent),
          ∃ t, t + 1 < (exTangent :: mids).length ∧
            resolveAt ((exTangent :: mids).getD t exTangent) p.1 p.2 =
              .ok ((exTangent :: mids).getD (t + 1) exTangent)) :=
  ⟨exTangent_step,
    update_spheres_resolves_every_contact exTangent [exTangentMid, exTangentFinal]
      exTangent_step⟩
